import Mathlib

/-!
Verification of the TillerTools Stripe payout reconciliation engine.

The repository holds two JavaScript variants of the same reconciliation
engine (a top-level one in `stripeReconciliation.js` and a namespaced one in
`tiller_tools/stripe/stripeReconciliation.js`), plus a sidebar configuration
manager (`sidebar/logger.js` with the allow-list in `sidebar` globals).

This file gives a shallow embedding of the data model and of the operations
the checked properties talk about.  Spreadsheet state is a list of rows of
cell values; machine numbers that the source treats as exact decimal money
amounts are embedded as rationals; epoch timestamps are integers; fallible
steps return `Option` or `Except`.  Each embedded function is translated
from the corresponding JavaScript function and keeps its name.
-/

namespace Tiller

/-- A spreadsheet cell value: blank, a number, a string, or a date
(epoch seconds).  Mirrors the value kinds the source reads and writes. -/
inductive CellVal where
  | blank
  | num (q : ℚ)
  | str (s : String)
  | date (epoch : ℤ)
  deriving Repr, DecidableEq, Inhabited

/-- One sheet row: the list of its cell values, in column order. -/
abbrev Row := List CellVal

/-- The data region of the Transactions sheet: row 1 is the header row. -/
abbrev Sheet := List Row

/-- A row of `w` blank cells, as produced by inserting fresh rows. -/
def blankRow (w : Nat) : Row := List.replicate w .blank

/-- `sheet.getRange(start, 1, vals.length, w).setValues(vals)`:
overwrite the rows starting at 1-based row `start` with `vals`. -/
def setValuesAt (s : Sheet) (start : Nat) (vals : List Row) : Sheet :=
  s.take (start - 1) ++ vals ++ s.drop (start - 1 + vals.length)

/-- `sheet.insertRowsAfter(rowIdx, n)` on a sheet of width `w`:
insert `n` blank rows immediately after 1-based row `rowIdx`. -/
def insertRowsAfter (s : Sheet) (rowIdx n w : Nat) : Sheet :=
  s.take rowIdx ++ List.replicate n (blankRow w) ++ s.drop rowIdx

/-- `sheet.deleteRows(start, n)`: delete `n` rows starting at 1-based
row `start`. -/
def deleteRowsAt (s : Sheet) (start n : Nat) : Sheet :=
  s.take (start - 1) ++ s.drop (start - 1 + n)

/-- `sheet.getRange(r, c).setValue(v)`: set one cell (1-based indices). -/
def setCellAt (s : Sheet) (r c : Nat) (v : CellVal) : Sheet :=
  s.set (r - 1) ((s.getD (r - 1) []).set (c - 1) v)

/-- `sheet.getRange(r, c).getValue()` (1-based indices). -/
def getCellAt (s : Sheet) (r c : Nat) : CellVal :=
  (s.getD (r - 1) []).getD (c - 1) .blank

/-- A Stripe payout record as consumed by the engine: opaque id, arrival
epoch seconds, amount in minor units, destination bank account. -/
structure StripePayout where
  id : String
  arrival_date : ℤ
  amount : ℤ
  destination : Option String
  deriving Repr, DecidableEq

/-- A candidate payout row produced by `filterStripePayoutRows`:
1-based sheet row index, the row date (epoch seconds), the signed
amount and the description. -/
structure SheetPayoutRow where
  rowIndex : Nat
  dateEpoch : ℤ
  amount : ℚ
  description : String
  deriving Repr, DecidableEq

/-- `d.setHours(0,0,0,0)` on a Date holding epoch second `t`, in a script
timezone with fixed offset `tz` seconds east of UTC: truncate to the local
day start. -/
def truncToLocalDay (tz t : ℤ) : ℤ := t - (t + tz) % 86400

/-- The boolean matching test inside `findMatchingPayout` (both variants):
the payout arrival shifted by +8 hours and truncated to the local day must
equal the row date truncated to the local day, and the payout amount over
100 must be within 0.01 of the row amount. -/
def payoutMatchesRow (tz : ℤ) (row : SheetPayoutRow) (p : StripePayout) : Bool :=
  (truncToLocalDay tz (p.arrival_date + 8 * 3600) == truncToLocalDay tz row.dateEpoch)
    && decide (|(p.amount : ℚ) / 100 - row.amount| < 1 / 100)

/-- `findMatchingPayout(payoutRow, stripePayouts)` (identical in both
variants): first Stripe payout passing the date-and-amount test, else
null. -/
def findMatchingPayout (tz : ℤ) (row : SheetPayoutRow)
    (stripePayouts : List StripePayout) : Option StripePayout :=
  stripePayouts.find? (payoutMatchesRow tz row)

/-- The matching condition of the claim, as a proposition: same truncated
day after the +8 hour shift, and amount/100 within strictly 0.01. -/
def MatchesSpec (tz : ℤ) (row : SheetPayoutRow) (p : StripePayout) : Prop :=
  truncToLocalDay tz (p.arrival_date + 8 * 3600) = truncToLocalDay tz row.dateEpoch ∧
    |(p.amount : ℚ) / 100 - row.amount| < 1 / 100

/-- `p` is the first record of `ps`, in listing order, satisfying the
matching condition. -/
def IsFirstMatch (tz : ℤ) (row : SheetPayoutRow) (ps : List StripePayout)
    (p : StripePayout) : Prop :=
  ∃ l₁ l₂, ps = l₁ ++ p :: l₂ ∧ MatchesSpec tz row p ∧
    ∀ q ∈ l₁, ¬ MatchesSpec tz row q

theorem payoutMatchesRow_iff (tz : ℤ) (row : SheetPayoutRow) (p : StripePayout) :
    payoutMatchesRow tz row p = true ↔ MatchesSpec tz row p := by
  simp [payoutMatchesRow, MatchesSpec]

theorem find?_eq_some_iff_first {α : Type} (p : α → Bool) (l : List α) (x : α) :
    l.find? p = some x ↔
      ∃ l₁ l₂, l = l₁ ++ x :: l₂ ∧ p x = true ∧ ∀ a ∈ l₁, ¬ p a = true := by
  induction l with
  | nil => simp
  | cons a as ih =>
    by_cases ha : p a = true
    · simp only [List.find?_cons_of_pos _ ha]
      constructor
      · rintro h
        injection h with h
        exact ⟨[], as, by simp [← h], by rwa [← h], by simp⟩
      · rintro ⟨l₁, l₂, heq, hx, hnone⟩
        match l₁, heq with
        | [], heq => simp at heq; simp [heq.1]
        | b :: l₁, heq =>
          simp only [List.cons_append, List.cons.injEq] at heq
          exact absurd (heq.1 ▸ ha) (hnone b (by simp))
    · simp only [List.find?_cons_of_neg _ (by simpa using ha)]
      rw [ih]
      constructor
      · rintro ⟨l₁, l₂, heq, hx, hnone⟩
        refine ⟨a :: l₁, l₂, by simp [heq], hx, ?_⟩
        intro q hq
        rcases List.mem_cons.mp hq with h | h
        · subst h; exact ha
        · exact hnone q h
      · rintro ⟨l₁, l₂, heq, hx, hnone⟩
        match l₁, heq with
        | [], heq =>
          simp only [List.nil_append, List.cons.injEq] at heq
          exact absurd (heq.1 ▸ hx) ha
        | b :: l₁, heq =>
          simp only [List.cons_append, List.cons.injEq] at heq
          exact ⟨l₁, l₂, heq.2, hx, fun q hq => hnone q (by simp [hq])⟩

/-- C4: for every candidate ledger row and sequence of Stripe payout
records, `findMatchingPayout` returns the first record (in listing order)
whose arrival timestamp shifted by +8 hours and truncated to day
granularity equals the row day and whose amount/100 is strictly within
0.01 of the row amount; it returns null exactly when no record satisfies
both conditions; and the first-match specification determines the selected
record uniquely, so identical inputs always select the same record. -/
theorem findMatchingPayout_first_match (tz : ℤ) (row : SheetPayoutRow)
    (ps : List StripePayout) :
    (∀ p, findMatchingPayout tz row ps = some p ↔ IsFirstMatch tz row ps p) ∧
    (findMatchingPayout tz row ps = none ↔ ∀ p ∈ ps, ¬ MatchesSpec tz row p) ∧
    (∀ p q, IsFirstMatch tz row ps p → IsFirstMatch tz row ps q → p = q) := by
  refine ⟨?_, ?_, ?_⟩
  · intro p
    rw [findMatchingPayout, find?_eq_some_iff_first]
    unfold IsFirstMatch
    constructor
    · rintro ⟨l₁, l₂, heq, hx, hnone⟩
      exact ⟨l₁, l₂, heq, (payoutMatchesRow_iff tz row p).mp hx,
        fun q hq h => hnone q hq ((payoutMatchesRow_iff tz row q).mpr h)⟩
    · rintro ⟨l₁, l₂, heq, hx, hnone⟩
      exact ⟨l₁, l₂, heq, (payoutMatchesRow_iff tz row p).mpr hx,
        fun q hq h => hnone q hq ((payoutMatchesRow_iff tz row q).mp h)⟩
  · rw [findMatchingPayout, List.find?_eq_none]
    constructor
    · intro h p hp hm
      exact h p hp ((payoutMatchesRow_iff tz row p).mpr hm)
    · intro h p hp hm
      exact h p hp ((payoutMatchesRow_iff tz row p).mp hm)
  · rintro p q ⟨l₁, l₂, heq₁, hp, hnone₁⟩ ⟨m₁, m₂, heq₂, hq, hnone₂⟩
    have hps : ps.get? l₁.length = some p := by
      rw [heq₁, List.get?_append_right (le_refl _), Nat.sub_self]; rfl
    have hqs : ps.get? m₁.length = some q := by
      rw [heq₂, List.get?_append_right (le_refl _), Nat.sub_self]; rfl
    rcases lt_trichotomy l₁.length m₁.length with h | h | h
    · exfalso
      have hmem : p ∈ m₁ := by
        rw [heq₂, List.get?_append h] at hps
        exact List.get?_mem hps
      exact hnone₂ p hmem hp
    · rw [h] at hps
      have := hps.symm.trans hqs
      injection this
    · exfalso
      have hmem : q ∈ l₁ := by
        rw [heq₁, List.get?_append h] at hqs
        exact List.get?_mem hqs
      exact hnone₁ q hmem hq

/-- Witness for C4 at a concrete row and one matching payout: arrival
−28800s shifted by +8h lands on the row's day, and 50000 minor units
match a row amount of 500. -/
theorem findMatchingPayout_first_match_witness :
    findMatchingPayout 0 (SheetPayoutRow.mk 2 0 500 "x")
        [StripePayout.mk "po_w" (-28800) 50000 none]
      = some (StripePayout.mk "po_w" (-28800) 50000 none) := by
  have h := findMatchingPayout_first_match 0 (SheetPayoutRow.mk 2 0 500 "x")
    [StripePayout.mk "po_w" (-28800) 50000 none]
  exact (h.1 (StripePayout.mk "po_w" (-28800) 50000 none)).mpr
    ⟨[], [], rfl, ⟨by decide, by norm_num⟩, by simp⟩

/-! ### Matching phase of `processStripePayouts` (both variants)

The main loop pairs each candidate row with `findMatchingPayout`; on a hit
it does `payoutRowMap.set(matchingPayout.id, {payoutRow, matchingPayout})`
and `payoutIdsToProcess.push(matchingPayout.id)`.  A JavaScript `Map.set`
overwrites the value already stored under an existing key. -/

/-- JavaScript `Map.set`: replace the value under an existing key in
place, otherwise append the new binding. -/
def mapSet {α : Type} : List (String × α) → String → α → List (String × α)
  | [], k, v => [(k, v)]
  | (k₀, v₀) :: rest, k, v =>
      if k₀ = k then (k₀, v) :: rest else (k₀, v₀) :: mapSet rest k v

/-- JavaScript `Map.get`: the value stored under `k`, if any. -/
def mapGet {α : Type} : List (String × α) → String → Option α
  | [], _ => none
  | (k₀, v) :: rest, k => if k₀ == k then some v else mapGet rest k

/-- State built by the matching loop: the payout-id-to-row map and the
queue of payout ids to process. -/
structure MatchState where
  payoutRowMap : List (String × (SheetPayoutRow × StripePayout))
  payoutIdsToProcess : List String
  deriving Repr

/-- One iteration of `payoutRows.forEach` in `processStripePayouts`. -/
def matchStep (tz : ℤ) (stripePayouts : List StripePayout) (st : MatchState)
    (payoutRow : SheetPayoutRow) : MatchState :=
  match findMatchingPayout tz payoutRow stripePayouts with
  | some matchingPayout =>
      ⟨mapSet st.payoutRowMap matchingPayout.id (payoutRow, matchingPayout),
        st.payoutIdsToProcess ++ [matchingPayout.id]⟩
  | none => st

/-- The whole matching phase of `processStripePayouts`. -/
def matchPhase (tz : ℤ) (payoutRows : List SheetPayoutRow)
    (stripePayouts : List StripePayout) : MatchState :=
  payoutRows.foldl (matchStep tz stripePayouts) ⟨[], []⟩

/-- The (payout id, row, payout) triples produced by the rows that match
some Stripe payout, in row order. -/
def matchedPairs (tz : ℤ) (stripePayouts : List StripePayout)
    (payoutRows : List SheetPayoutRow) :
    List (String × (SheetPayoutRow × StripePayout)) :=
  payoutRows.filterMap (fun r =>
    (findMatchingPayout tz r stripePayouts).map (fun mp => (mp.id, r, mp)))

theorem mapGet_mapSet {α : Type} (m : List (String × α)) (k k₀ : String) (v : α) :
    mapGet (mapSet m k v) k₀ = if k = k₀ then some v else mapGet m k₀ := by
  induction m with
  | nil =>
    by_cases h : k = k₀ <;> simp [mapSet, mapGet, h]
  | cons e rest ih =>
    obtain ⟨ke, ve⟩ := e
    by_cases hke : ke = k
    · subst hke
      by_cases h : ke = k₀ <;> simp [mapSet, mapGet, h]
    · by_cases h : ke = k₀
      · subst h
        have hk : ¬ k = ke := fun hc => hke hc.symm
        simp [mapSet, mapGet, hke, hk]
      · simp [mapSet, mapGet, hke, h, ih]

/-- The last value bound to `pid` in an association list read left to
right (later bindings win), mirroring repeated `Map.set` overwrites. -/
def lastFor {α : Type} (pid : String) : List (String × α) → Option α
  | [] => none
  | (k, v) :: rest =>
      match lastFor pid rest with
      | some w => some w
      | none => if k == pid then some v else none

theorem getLast?_cons_char {α : Type} (a : α) (l : List α) :
    (a :: l).getLast? = match l.getLast? with | none => some a | some b => some b := by
  induction l generalizing a with
  | nil => rfl
  | cons x xs ih =>
    rw [List.getLast?_cons_cons, ih x]
    cases xs.getLast? <;> rfl

theorem lastFor_eq_filter_getLast? {α : Type} (pid : String)
    (l : List (String × α)) :
    lastFor pid l = ((l.filter (fun e => e.1 == pid)).getLast?).map (fun e => e.2) := by
  induction l with
  | nil => rfl
  | cons e rest ih =>
    obtain ⟨k, v⟩ := e
    by_cases hk : k = pid
    · subst hk
      simp only [lastFor, ih, List.filter_cons, beq_self_eq_true, if_pos, ite_true]
      rw [getLast?_cons_char]
      cases (rest.filter (fun e => e.1 == k)).getLast? <;> simp
    · have hkb : (k == pid) = false := by simp [hk]
      simp only [lastFor, ih, List.filter_cons, hkb]
      cases hres : ((rest.filter (fun e => e.1 == pid)).getLast?) <;> simp [hres]

theorem matchPhase_go (tz : ℤ) (stripePayouts : List StripePayout)
    (payoutRows : List SheetPayoutRow) (st : MatchState) :
    (payoutRows.foldl (matchStep tz stripePayouts) st).payoutIdsToProcess
        = st.payoutIdsToProcess ++ (matchedPairs tz stripePayouts payoutRows).map (fun e => e.1) ∧
    ∀ pid, mapGet (payoutRows.foldl (matchStep tz stripePayouts) st).payoutRowMap pid
        = match lastFor pid (matchedPairs tz stripePayouts payoutRows) with
          | some w => some w
          | none => mapGet st.payoutRowMap pid := by
  induction payoutRows generalizing st with
  | nil =>
    refine ⟨by simp [matchedPairs], fun pid => ?_⟩
    simp [matchedPairs, lastFor]
  | cons r rows ih =>
    simp only [List.foldl_cons]
    have hmp : matchedPairs tz stripePayouts (r :: rows)
        = match findMatchingPayout tz r stripePayouts with
          | some mp => (mp.id, r, mp) :: matchedPairs tz stripePayouts rows
          | none => matchedPairs tz stripePayouts rows := by
      cases h : findMatchingPayout tz r stripePayouts <;>
        simp [matchedPairs, List.filterMap_cons, h]
    cases h : findMatchingPayout tz r stripePayouts with
    | none =>
      rw [hmp]
      simp only [h]
      have hstep : matchStep tz stripePayouts st r = st := by
        simp [matchStep, h]
      rw [hstep]
      exact ih st
    | some mp =>
      rw [hmp]
      simp only [h]
      have hstep : matchStep tz stripePayouts st r
          = ⟨mapSet st.payoutRowMap mp.id (r, mp),
              st.payoutIdsToProcess ++ [mp.id]⟩ := by
        simp [matchStep, h]
      rw [hstep]
      obtain ⟨h1, h2⟩ := ih ⟨mapSet st.payoutRowMap mp.id (r, mp),
        st.payoutIdsToProcess ++ [mp.id]⟩
      refine ⟨by simpa using h1, fun pid => ?_⟩
      rw [h2 pid, mapGet_mapSet]
      simp only [lastFor]
      cases hl : lastFor pid (matchedPairs tz stripePayouts rows) with
      | some w => rfl
      | none =>
        by_cases hid : mp.id = pid
        · simp [hid]
        · have : (mp.id == pid) = false := by simp [hid]
          simp [this, if_neg hid]

/-- C10: in the matching phase, when several candidate rows match the same
Stripe payout id, the payout-id-to-row map keeps only the last matching
row (earlier associations are overwritten) while the id is queued once per
matching row; so the id is processed once per matching row, each time
against the last matching row. -/
theorem matchPhase_duplicate_ids (tz : ℤ) (payoutRows : List SheetPayoutRow)
    (stripePayouts : List StripePayout) (pid : String) :
    ((matchPhase tz payoutRows stripePayouts).payoutIdsToProcess.count pid
        = ((matchedPairs tz stripePayouts payoutRows).filter (fun e => e.1 == pid)).length) ∧
    (mapGet (matchPhase tz payoutRows stripePayouts).payoutRowMap pid
        = (((matchedPairs tz stripePayouts payoutRows).filter (fun e => e.1 == pid)).getLast?).map
            (fun e => e.2)) ∧
    ((matchPhase tz payoutRows stripePayouts).payoutIdsToProcess.map
          (fun i => mapGet (matchPhase tz payoutRows stripePayouts).payoutRowMap i)
        = (matchedPairs tz stripePayouts payoutRows).map (fun e =>
            (((matchedPairs tz stripePayouts payoutRows).filter
                (fun x => x.1 == e.1)).getLast?).map (fun x => x.2))) := by
  obtain ⟨h1, h2⟩ := matchPhase_go tz stripePayouts payoutRows ⟨[], []⟩
  have hqueue : (matchPhase tz payoutRows stripePayouts).payoutIdsToProcess
      = (matchedPairs tz stripePayouts payoutRows).map (fun e => e.1) := by
    simpa [matchPhase] using h1
  have hmap : ∀ q, mapGet (matchPhase tz payoutRows stripePayouts).payoutRowMap q
      = (((matchedPairs tz stripePayouts payoutRows).filter
          (fun e => e.1 == q)).getLast?).map (fun e => e.2) := by
    intro q
    have := h2 q
    rw [lastFor_eq_filter_getLast?] at this
    simp only [matchPhase]
    rw [this]
    cases hres : (((matchedPairs tz stripePayouts payoutRows).filter
        (fun e => e.1 == q)).getLast?).map (fun e => e.2) with
    | none => simp [mapGet]
    | some w => rfl
  refine ⟨?_, hmap pid, ?_⟩
  · rw [hqueue, List.count_eq_countP, List.countP_map,
      List.countP_eq_length_filter]
    rfl
  · rw [hqueue, List.map_map]
    exact List.map_congr_left (fun e _ => hmap e.1)

/-! ### `fetchStripePayouts` pagination (identical in both variants)

The upstream is modelled as the ordered list of pages it serves: each
request consumes the next page `{data, has_more}`.  The loop keeps
fetching while `has_more`, computing the next cursor as
`result.data[result.data.length - 1].id`; on an empty page with
`has_more=true` that expression throws (reading `.id` of `undefined`),
which the model records as a failed outcome. -/

/-- One response envelope `{data: PayoutRecord[], has_more: bool}`. -/
structure PayoutsPage where
  data : List StripePayout
  has_more : Bool
  deriving Repr, DecidableEq

/-- Observable outcome of `fetchStripePayouts`: whether it returned
normally, the concatenated records, and the `starting_after` cursor of
every request issued (in order; `none` is the cursorless first request). -/
structure FetchOutcome where
  ok : Bool
  payouts : List StripePayout
  requests : List (Option String)
  deriving Repr, DecidableEq

/-- The `while (hasMore)` loop of `fetchStripePayouts`, one page per
request. -/
def fetchStripePayoutsLoop (cursor : Option String) :
    List PayoutsPage → FetchOutcome
  | [] => ⟨false, [], [cursor]⟩
  | page :: rest =>
      if page.has_more then
        match page.data.getLast? with
        | none => ⟨false, [], [cursor]⟩
        | some lastPayout =>
            let r := fetchStripePayoutsLoop (some lastPayout.id) rest
            ⟨r.ok, page.data ++ r.payouts, cursor :: r.requests⟩
      else ⟨true, page.data, [cursor]⟩

/-- `fetchStripePayouts(startDate, endDate)` against an upstream serving
the given pages: first request has no `starting_after` cursor. -/
def fetchStripePayouts (pages : List PayoutsPage) : FetchOutcome :=
  fetchStripePayoutsLoop none pages

theorem fetchStripePayoutsLoop_spec (ps : List PayoutsPage) (lastPage : PayoutsPage)
    (hmore : ∀ p ∈ ps, p.has_more = true ∧ p.data ≠ [])
    (hlast : lastPage.has_more = false) (cursor : Option String) :
    fetchStripePayoutsLoop cursor (ps ++ [lastPage])
      = ⟨true, ((ps ++ [lastPage]).map PayoutsPage.data).join,
          cursor :: ps.map (fun p => (p.data.getLast?).map StripePayout.id)⟩ := by
  induction ps generalizing cursor with
  | nil =>
    simp [fetchStripePayoutsLoop, hlast]
  | cons p ps ih =>
    obtain ⟨hm, hne⟩ := hmore p (by simp)
    have hsome : p.data.getLast?.isSome := List.getLast?_isSome.mpr hne
    obtain ⟨q, hq⟩ := Option.isSome_iff_exists.mp hsome
    have ihp := ih (fun x hx => hmore x (by simp [hx])) (some q.id)
    simp only [List.cons_append, fetchStripePayoutsLoop, hm, if_true, hq, ihp]
    simp [hq, ihp]

/-- C5 counterexample: an upstream answering `has_more=true` on exactly
one page and then `has_more=false`, where the `has_more` page carries no
records.  The claim demands 2 requests and the concatenation of both
pages; the code instead throws after the first request (it reads `.id` of
`undefined`), issuing 1 request and returning nothing. -/
theorem fetchStripePayouts_empty_page_counterexample :
    (PayoutsPage.mk [] true).has_more = true ∧
    (PayoutsPage.mk [StripePayout.mk "po_1" 0 100 none] false).has_more = false ∧
    fetchStripePayouts
        [PayoutsPage.mk [] true, PayoutsPage.mk [StripePayout.mk "po_1" 0 100 none] false]
      = ⟨false, [], [none]⟩ :=
  ⟨rfl, rfl, rfl⟩

/-- C5 (amended): for an upstream answering `has_more=true` with a
nonempty page exactly k times and then `has_more=false`, the loop
terminates after exactly k+1 requests, each subsequent request using a
`starting_after` cursor equal to the id of the last record of the
previous page, and returns all k+1 pages of records concatenated in page
order. -/
theorem fetchStripePayouts_pagination (ps : List PayoutsPage) (lastPage : PayoutsPage)
    (hmore : ∀ p ∈ ps, p.has_more = true ∧ p.data ≠ [])
    (hlast : lastPage.has_more = false) :
    (fetchStripePayouts (ps ++ [lastPage])).ok = true ∧
    (fetchStripePayouts (ps ++ [lastPage])).payouts
        = ((ps ++ [lastPage]).map PayoutsPage.data).join ∧
    (fetchStripePayouts (ps ++ [lastPage])).requests.length = ps.length + 1 ∧
    (fetchStripePayouts (ps ++ [lastPage])).requests
        = none :: ps.map (fun p => (p.data.getLast?).map StripePayout.id) := by
  rw [fetchStripePayouts, fetchStripePayoutsLoop_spec ps lastPage hmore hlast none]
  simp

/-- Witness for the amended C5 theorem at a concrete two-page upstream. -/
theorem fetchStripePayouts_pagination_witness :
    (fetchStripePayouts
        [PayoutsPage.mk [StripePayout.mk "po_a" 10 500 none] true,
          PayoutsPage.mk [StripePayout.mk "po_b" 20 700 none] false]).payouts
      = [StripePayout.mk "po_a" 10 500 none, StripePayout.mk "po_b" 20 700 none] := by
  have h := fetchStripePayouts_pagination
    [PayoutsPage.mk [StripePayout.mk "po_a" 10 500 none] true]
    (PayoutsPage.mk [StripePayout.mk "po_b" 20 700 none] false)
    (by intro p hp; simp at hp; subst hp; exact ⟨rfl, by simp⟩)
    rfl
  simpa using h.2.1

/-! ### Ledger writer and rollback (`processPayoutTransactions` tail)

On success the engine runs `insertRowsAfter(payoutRow.rowIndex, n)` and
then writes the generated rows with `setValues`; the top-level variant
additionally zeroes the payout row Amount cell.  The catch-block calls
`rollbackChanges(sheet, payoutRow.rowIndex, newRowsData.length,
originalData)` where `originalData` snapshots every row from the payout
row to the last row, taken before any mutation. -/

/-- `rollbackChanges` (identical in both variants): delete the
`newRowsCount` rows after the payout row when any were counted, then
overwrite from the payout row down with the snapshot. -/
def rollbackChanges (s : Sheet) (payoutRowIndex newRowsCount : Nat)
    (originalData : List Row) : Sheet :=
  let s1 := if 0 < newRowsCount then deleteRowsAt s (payoutRowIndex + 1) newRowsCount else s
  setValuesAt s1 payoutRowIndex originalData

/-- The successful insertion step shared by both variants:
`insertRowsAfter` followed by `setValues` on the fresh rows, skipped
entirely when no rows were generated. -/
def insertDerivedRows (s : Sheet) (payoutRowIndex w : Nat) (newRowsData : List Row) : Sheet :=
  if 0 < newRowsData.length then
    setValuesAt (insertRowsAfter s payoutRowIndex newRowsData.length w)
      (payoutRowIndex + 1) newRowsData
  else s

theorem take_append₂ {α : Type} (a b c : List α) (n : Nat) (h : a.length = n) :
    (a ++ b ++ c).take n = a := by
  rw [List.append_assoc]
  exact List.take_left' h

theorem drop_append₂ {α : Type} (a b c : List α) (n : Nat) (h : a.length + b.length = n) :
    (a ++ b ++ c).drop n = c :=
  List.drop_left' (by simp [h])

theorem insertDerivedRows_eq (s : Sheet) (r w : Nat) (rows : List Row)
    (hr : r ≤ s.length) :
    insertDerivedRows s r w rows = s.take r ++ rows ++ s.drop r := by
  by_cases h : 0 < rows.length
  · rw [insertDerivedRows, if_pos h, insertRowsAfter, setValuesAt]
    have e1 : (s.take r ++ List.replicate rows.length (blankRow w) ++ s.drop r).take
        ((r + 1) - 1) = s.take r :=
      take_append₂ _ _ _ _ (by simp [hr])
    have e2 : (s.take r ++ List.replicate rows.length (blankRow w) ++ s.drop r).drop
        ((r + 1) - 1 + rows.length) = s.drop r :=
      drop_append₂ _ _ _ _ (by simp [hr])
    rw [e1, e2]
  · have : rows = [] := List.length_eq_zero.mp (Nat.eq_zero_of_not_pos h)
    subst this
    simp [insertDerivedRows, List.take_append_drop]

theorem setValuesAt_restore (s : Sheet) (r : Nat) (hr : r - 1 ≤ s.length) :
    setValuesAt s r (s.drop (r - 1)) = s := by
  rw [setValuesAt]
  have hlen : (r - 1) + (s.drop (r - 1)).length = s.length := by
    simp [Nat.add_sub_cancel' hr]
  rw [hlen, List.drop_eq_nil_of_le (le_refl s.length), List.append_nil,
    List.take_append_drop]

theorem rollbackChanges_not_inserted (s : Sheet) (r n : Nat)
    (hr1 : 1 ≤ r) (hr : r ≤ s.length) :
    rollbackChanges s r n (s.drop (r - 1)) = s := by
  rw [rollbackChanges]
  by_cases h : 0 < n
  · simp only [if_pos h]
    rw [deleteRowsAt]
    have hs1 : (s.take ((r + 1) - 1) ++ s.drop ((r + 1) - 1 + n)).take (r - 1)
        = s.take (r - 1) := by
      have h1 : r - 1 ≤ (s.take ((r + 1) - 1)).length := by
        simp only [Nat.add_sub_cancel, List.length_take]
        exact le_min (Nat.sub_le_of_le_add (by omega)) (by omega)
      rw [List.take_append_of_le_length h1, Nat.add_sub_cancel, List.take_take,
        min_eq_left (by omega)]
    rw [setValuesAt]
    have hlen : (r - 1) + (s.drop (r - 1)).length = s.length := by
      simp [Nat.add_sub_cancel' (by omega : r - 1 ≤ s.length)]
    rw [hlen, hs1]
    have hshort : (s.take ((r + 1) - 1) ++ s.drop ((r + 1) - 1 + n)).length ≤ s.length := by
      simp only [List.length_append, List.length_take, List.length_drop,
        Nat.add_sub_cancel]
      omega
    rw [List.drop_eq_nil_of_le hshort, List.append_nil, List.take_append_drop]
  · simp only [if_neg h]
    exact setValuesAt_restore s r (by omega)

theorem rollbackChanges_after_insert (s : Sheet) (r w : Nat) (rows : List Row)
    (hr1 : 1 ≤ r) (hr : r ≤ s.length) :
    rollbackChanges (insertDerivedRows s r w rows) r rows.length (s.drop (r - 1)) = s := by
  rw [insertDerivedRows_eq s r w rows hr, rollbackChanges]
  by_cases h : 0 < rows.length
  · simp only [if_pos h]
    rw [deleteRowsAt]
    have e1 : (s.take r ++ rows ++ s.drop r).take ((r + 1) - 1) = s.take r :=
      take_append₂ _ _ _ _ (by simp [hr])
    have e2 : (s.take r ++ rows ++ s.drop r).drop ((r + 1) - 1 + rows.length)
        = s.drop r :=
      drop_append₂ _ _ _ _ (by simp [hr])
    rw [e1, e2, List.take_append_drop]
    exact setValuesAt_restore s r (by omega)
  · have : rows = [] := List.length_eq_zero.mp (Nat.eq_zero_of_not_pos h)
    subst this
    simp only [List.length_nil, lt_irrefl, if_neg (lt_irrefl 0), List.append_nil]
    rw [List.take_append_drop]
    exact rollbackChanges_not_inserted s r 0 hr1 hr

/-- C2: whenever a step fails during one payout's processing — before the
generated rows were inserted (the sheet still holds its pre-processing
state) or after they were inserted — `rollbackChanges`, called as in both
variants with the payout row index, the generated-row count and the
snapshot of all rows from the payout row to the end of the sheet, restores
the exact pre-processing cell values of that whole range (indeed of the
whole sheet). -/
theorem rollbackChanges_restores_original (s : Sheet) (r w : Nat) (rows : List Row)
    (hr1 : 1 ≤ r) (hr : r ≤ s.length) :
    rollbackChanges s r rows.length (s.drop (r - 1)) = s ∧
    rollbackChanges (insertDerivedRows s r w rows) r rows.length (s.drop (r - 1)) = s :=
  ⟨rollbackChanges_not_inserted s r rows.length hr1 hr,
    rollbackChanges_after_insert s r w rows hr1 hr⟩

/-- Witness for C2 on a concrete 3-row sheet with one generated row. -/
theorem rollbackChanges_restores_original_witness :
    rollbackChanges [[CellVal.num 1], [CellVal.num 2], [CellVal.num 3]] 2 1
        ([[CellVal.num 1], [CellVal.num 2], [CellVal.num 3]].drop 1)
      = [[CellVal.num 1], [CellVal.num 2], [CellVal.num 3]] ∧
    rollbackChanges
        (insertDerivedRows [[CellVal.num 1], [CellVal.num 2], [CellVal.num 3]] 2 1
          [[CellVal.num 9]]) 2 1
        ([[CellVal.num 1], [CellVal.num 2], [CellVal.num 3]].drop 1)
      = [[CellVal.num 1], [CellVal.num 2], [CellVal.num 3]] := by
  have h := rollbackChanges_restores_original
    [[CellVal.num 1], [CellVal.num 2], [CellVal.num 3]] 2 1 [[CellVal.num 9]]
    (by decide) (by decide)
  simpa using h

/-! ### Success branch of `processPayoutTransactions` in the two variants

After a passing conservation check the top-level variant inserts the
generated rows and then runs
`sheet.getRange(payoutRow.rowIndex, columnIndices.amount).setValue(0)`;
the namespaced variant inserts the generated rows and leaves the payout
row untouched (the zeroing statement is commented out). -/

/-- Top-level variant success branch: insert the batch, then zero the
payout row Amount cell. -/
def commitSimple (s : Sheet) (payoutRowIndex amountCol w : Nat)
    (newRowsData : List Row) : Sheet :=
  setCellAt (insertDerivedRows s payoutRowIndex w newRowsData)
    payoutRowIndex amountCol (CellVal.num 0)

/-- Namespaced variant success branch: insert the batch only. -/
def commitRich (s : Sheet) (payoutRowIndex w : Nat) (newRowsData : List Row) : Sheet :=
  insertDerivedRows s payoutRowIndex w newRowsData

theorem getCellAt_setCellAt_same (s : Sheet) (r c : Nat) (v : CellVal)
    (hrlen : r - 1 < s.length) (hclen : c - 1 < (s.getD (r - 1) []).length) :
    getCellAt (setCellAt s r c v) r c = v := by
  rw [setCellAt, getCellAt]
  have h1 : (s.set (r - 1) ((s.getD (r - 1) []).set (c - 1) v)).getD (r - 1) []
      = (s.getD (r - 1) []).set (c - 1) v := by
    rw [List.getD_eq_getElem?_getD, List.getElem?_set_eq_of_lt _ hrlen]
    rfl
  rw [h1, List.getD_eq_getElem?_getD, List.getElem?_set_eq_of_lt _ hclen]
  rfl

theorem getCellAt_setCellAt_ne (s : Sheet) (r c : Nat) (v : CellVal) (i j : Nat)
    (hi1 : 1 ≤ i) (hr1 : 1 ≤ r) (hj1 : 1 ≤ j) (hc1 : 1 ≤ c)
    (hne : ¬(i = r ∧ j = c)) :
    getCellAt (setCellAt s r c v) i j = getCellAt s i j := by
  rw [setCellAt, getCellAt, getCellAt]
  by_cases hir : i = r
  · subst hir
    have hjc : j ≠ c := fun hc0 => hne ⟨rfl, hc0⟩
    by_cases hlen : i - 1 < s.length
    · have h1 : (s.set (i - 1) ((s.getD (i - 1) []).set (c - 1) v)).getD (i - 1) []
          = (s.getD (i - 1) []).set (c - 1) v := by
        rw [List.getD_eq_getElem?_getD, List.getElem?_set_eq_of_lt _ hlen]
        rfl
      rw [h1, List.getD_eq_getElem?_getD,
        List.getElem?_set_ne (by omega : c - 1 ≠ j - 1), ← List.getD_eq_getElem?_getD]
    · have h0 : s.length ≤ i - 1 := Nat.le_of_not_lt hlen
      rw [List.set_eq_of_length_le h0]
  · have h1 : (s.set (r - 1) ((s.getD (r - 1) []).set (c - 1) v)).getD (i - 1) []
        = s.getD (i - 1) [] := by
      rw [List.getD_eq_getElem?_getD,
        List.getElem?_set_ne (by omega : r - 1 ≠ i - 1), ← List.getD_eq_getElem?_getD]
    rw [h1]

theorem commitRich_row_unchanged (s : Sheet) (r w : Nat) (rows : List Row)
    (hr1 : 1 ≤ r) (hr : r ≤ s.length) :
    (commitRich s r w rows).getD (r - 1) [] = s.getD (r - 1) [] := by
  rw [commitRich, insertDerivedRows_eq s r w rows hr]
  have hlt : r - 1 < (s.take r).length := by simp [hr]; omega
  rw [List.getD_eq_getElem?_getD, List.append_assoc,
    List.getElem?_append_left hlt, List.getElem?_take, if_pos (by omega : r - 1 < r),
    ← List.getD_eq_getElem?_getD]

/-- C6: the top-level variant sets the original payout row Amount cell
to zero after a successful insertion while the namespaced variant leaves
the payout row unchanged; otherwise both variants commit the generated
derived-row batch identically (every other cell agrees, and the batch is
placed immediately after the payout row in both). -/
theorem commit_variants_amount_zeroing (s : Sheet) (r c w : Nat) (rows : List Row)
    (hr1 : 1 ≤ r) (hr : r ≤ s.length) (hc1 : 1 ≤ c)
    (hc : c - 1 < (s.getD (r - 1) []).length) :
    commitSimple s r c w rows = setCellAt (commitRich s r w rows) r c (CellVal.num 0) ∧
    getCellAt (commitSimple s r c w rows) r c = CellVal.num 0 ∧
    (commitRich s r w rows).getD (r - 1) [] = s.getD (r - 1) [] ∧
    (∀ i j, 1 ≤ i → 1 ≤ j → ¬(i = r ∧ j = c) →
      getCellAt (commitSimple s r c w rows) i j = getCellAt (commitRich s r w rows) i j) ∧
    commitRich s r w rows = s.take r ++ rows ++ s.drop r := by
  have hroweq := commitRich_row_unchanged s r w rows hr1 hr
  refine ⟨rfl, ?_, hroweq, ?_, insertDerivedRows_eq s r w rows hr⟩
  · rw [commitSimple]
    have hlen : r - 1 < (insertDerivedRows s r w rows).length := by
      rw [insertDerivedRows_eq s r w rows hr]
      simp only [List.length_append, List.length_take, List.length_drop]
      omega
    exact getCellAt_setCellAt_same _ r c _ hlen (by rw [show insertDerivedRows s r w rows = commitRich s r w rows from rfl, hroweq]; exact hc)
  · intro i j hi hj hne
    exact getCellAt_setCellAt_ne _ r c _ i j hi hr1 hj hc1 hne

/-- Witness for C6 on a concrete 2-row sheet with a 1-row batch. -/
theorem commit_variants_amount_zeroing_witness :
    getCellAt (commitSimple [[CellVal.num 7, CellVal.str "x"], [CellVal.num 8, CellVal.str "y"]]
        1 1 2 [[CellVal.num 5, CellVal.str "d"]]) 1 1 = CellVal.num 0 ∧
    (commitRich [[CellVal.num 7, CellVal.str "x"], [CellVal.num 8, CellVal.str "y"]]
        1 2 [[CellVal.num 5, CellVal.str "d"]]).getD 0 []
      = [CellVal.num 7, CellVal.str "x"] := by
  have h := commit_variants_amount_zeroing
    [[CellVal.num 7, CellVal.str "x"], [CellVal.num 8, CellVal.str "y"]] 1 1 2
    [[CellVal.num 5, CellVal.str "d"]] (by decide) (by decide) (by decide) (by decide)
  exact ⟨h.2.1, by simpa using h.2.2.1⟩

/-! ### Conservation check of `processPayoutTransactions`

Both variants sum the Amount cell over the generated rows (non-numbers
count as 0).  The top-level variant then tests
`Math.abs(totalProcessedAmount - payoutRow.amount) > 0.01`; the
namespaced variant tests `Math.abs(totalProcessedAmount) > 0.01`
(its fetched transactions include the payout balance transaction itself,
so its generated rows are expected to net to zero).  On a failing test
both delete the files created for the payout and throw the
amount-mismatch error without inserting anything; on a passing test both
insert the batch, the top-level one additionally zeroing the payout row
Amount. -/

/-- `typeof amount === 'number' ? amount : 0` on a cell value. -/
def cellNumOr0 : CellVal → ℚ
  | CellVal.num q => q
  | _ => 0

/-- `newRowsData.reduce((sum, row) => sum + (typeof amount === 'number' ?
amount : 0), 0)` where `amount = row[currentColumnIndices.amount]`
(0-based index `amountIdx0`). -/
def totalProcessedAmount (newRowsData : List Row) (amountIdx0 : Nat) : ℚ :=
  newRowsData.foldl (fun sum row => sum + cellNumOr0 (row.getD amountIdx0 CellVal.blank)) 0

/-- Observable outcome of the check-and-commit tail of
`processPayoutTransactions` for one payout. -/
structure FinalizeOut where
  sheet : Sheet
  filesDeleted : Bool
  mismatchError : Bool
  rowsInserted : Nat
  deriving Repr, DecidableEq

/-- Top-level variant tail: compare the batch total against the payout
row amount. -/
def finalizeSimple (s : Sheet) (payoutRowIndex amountCol w : Nat)
    (newRowsData : List Row) (payoutRowAmount : ℚ) : FinalizeOut :=
  if |totalProcessedAmount newRowsData (amountCol - 1) - payoutRowAmount| > 1 / 100 then
    ⟨s, true, true, 0⟩
  else
    ⟨commitSimple s payoutRowIndex amountCol w newRowsData, false, false, newRowsData.length⟩

/-- Namespaced variant tail: compare the batch total against zero; the
payout row amount is only interpolated into the error message. -/
def finalizeRich (s : Sheet) (payoutRowIndex amountCol w : Nat)
    (newRowsData : List Row) (payoutRowAmount : ℚ) : FinalizeOut :=
  if |totalProcessedAmount newRowsData (amountCol - 1)| > 1 / 100 then
    ⟨s, true, true, 0⟩
  else
    ⟨commitRich s payoutRowIndex w newRowsData, false, false, newRowsData.length⟩

/-- C1 counterexample: a batch summing to 0 against a payout row amount
of 500.  The claim requires both variants to reject (sum differs from the
row amount by 500); the namespaced variant instead inserts the rows and
raises no error. -/
theorem conservation_check_counterexample :
    totalProcessedAmount [[CellVal.num 300], [CellVal.num (-300)]] 0 = 0 ∧
    ¬ (|totalProcessedAmount [[CellVal.num 300], [CellVal.num (-300)]] 0 - 500| ≤ 1 / 100) ∧
    (finalizeRich [[CellVal.num 500]] 1 1 1
        [[CellVal.num 300], [CellVal.num (-300)]] 500).mismatchError = false ∧
    (finalizeRich [[CellVal.num 500]] 1 1 1
        [[CellVal.num 300], [CellVal.num (-300)]] 500).rowsInserted = 2 ∧
    (finalizeRich [[CellVal.num 500]] 1 1 1
        [[CellVal.num 300], [CellVal.num (-300)]] 500).sheet
      = [[CellVal.num 500], [CellVal.num 300], [CellVal.num (-300)]] := by
  refine ⟨by norm_num [totalProcessedAmount, cellNumOr0], by
    norm_num [totalProcessedAmount, cellNumOr0], ?_, ?_, ?_⟩ <;>
    norm_num [finalizeRich, totalProcessedAmount, cellNumOr0, commitRich,
      insertDerivedRows, setValuesAt, insertRowsAfter, blankRow]

/-- C1 (amended): the top-level variant inserts the generated rows iff
the batch total is within 0.01 of the original payout row amount, while
the namespaced variant inserts iff the batch total is within 0.01 of
zero; in each variant a failing check leaves the sheet untouched, deletes
the files created for this payout and raises the amount-mismatch error,
and a passing check inserts the batch immediately after the payout row
(the top-level variant also zeroing the payout row Amount cell). -/
theorem conservation_check_divergence (s : Sheet) (r c w : Nat) (rows : List Row)
    (amt : ℚ) (hr : r ≤ s.length) :
    ((finalizeSimple s r c w rows amt).mismatchError = false ↔
        |totalProcessedAmount rows (c - 1) - amt| ≤ 1 / 100) ∧
    ((finalizeRich s r c w rows amt).mismatchError = false ↔
        |totalProcessedAmount rows (c - 1)| ≤ 1 / 100) ∧
    ((finalizeSimple s r c w rows amt).mismatchError = true →
      (finalizeSimple s r c w rows amt).sheet = s ∧
      (finalizeSimple s r c w rows amt).filesDeleted = true ∧
      (finalizeSimple s r c w rows amt).rowsInserted = 0) ∧
    ((finalizeRich s r c w rows amt).mismatchError = true →
      (finalizeRich s r c w rows amt).sheet = s ∧
      (finalizeRich s r c w rows amt).filesDeleted = true ∧
      (finalizeRich s r c w rows amt).rowsInserted = 0) ∧
    ((finalizeSimple s r c w rows amt).mismatchError = false →
      (finalizeSimple s r c w rows amt).sheet
        = setCellAt (s.take r ++ rows ++ s.drop r) r c (CellVal.num 0)) ∧
    ((finalizeRich s r c w rows amt).mismatchError = false →
      (finalizeRich s r c w rows amt).sheet = s.take r ++ rows ++ s.drop r) := by
  refine ⟨?_, ?_, ?_, ?_, ?_, ?_⟩
  · rw [finalizeSimple]
    split_ifs with h
    · exact iff_of_false (by simp) (not_le.mpr h)
    · exact iff_of_true rfl (not_lt.mp h)
  · rw [finalizeRich]
    split_ifs with h
    · exact iff_of_false (by simp) (not_le.mpr h)
    · exact iff_of_true rfl (not_lt.mp h)
  · rw [finalizeSimple]
    split_ifs with h
    · exact fun _ => ⟨rfl, rfl, rfl⟩
    · exact fun hc => absurd hc (by simp)
  · rw [finalizeRich]
    split_ifs with h
    · exact fun _ => ⟨rfl, rfl, rfl⟩
    · exact fun hc => absurd hc (by simp)
  · rw [finalizeSimple]
    split_ifs with h
    · exact fun hc => absurd hc (by simp)
    · intro _
      show commitSimple s r c w rows = _
      rw [commitSimple, insertDerivedRows_eq s r w rows hr]
  · rw [finalizeRich]
    split_ifs with h
    · exact fun hc => absurd hc (by simp)
    · intro _
      show commitRich s r w rows = _
      rw [commitRich, insertDerivedRows_eq s r w rows hr]

/-- Witness for the amended C1 theorem: a balanced batch for the
namespaced variant and a row-amount-matching batch for the top-level
variant, on a concrete one-row sheet. -/
theorem conservation_check_divergence_witness :
    (finalizeSimple [[CellVal.num 500]] 1 1 1 [[CellVal.num 500]] 500).mismatchError
        = false ∧
    (finalizeRich [[CellVal.num 500]] 1 1 1 [[CellVal.num 0]] 500).sheet
        = [[CellVal.num 500], [CellVal.num 0]] := by
  have h1 := conservation_check_divergence [[CellVal.num 500]] 1 1 1
    [[CellVal.num 500]] 500 (by decide)
  have h2 := conservation_check_divergence [[CellVal.num 500]] 1 1 1
    [[CellVal.num 0]] 500 (by decide)
  refine ⟨h1.1.mpr (by norm_num [totalProcessedAmount, cellNumOr0]), ?_⟩
  have := h2.2.2.2.2.2 (h2.2.1.mpr (by norm_num [totalProcessedAmount, cellNumOr0]))
  simpa using this

/-! ### Decomposition rows: `createTransactionRow` / `createFeeRow`

The top-level variant knows only the Date / Description / Amount /
ReceiptURL columns; its row builders clone the payout row and overwrite
just those four cells.  The namespaced variant additionally resolves
Institution, "Account #", "Account ID", Category and "Transaction ID"
and overwrites those too; its `createFeeRow` forces the Category cell to
`STRIPE_FEE_CATEGORY_LABEL || category`. -/

/-- A fee-detail entry on a balance transaction. -/
structure FeeDetail where
  type : String
  amount : Option ℤ
  description : String
  deriving Repr, DecidableEq, Inhabited

/-- A balance transaction after the charge-enrichment loops (fields the
row builders read). -/
structure BalanceTx where
  id : String
  amount : Option ℤ
  status : String
  source : String
  reporting_category : String
  description : String
  type : String
  created : ℤ
  customer_name : Option String
  receipt_url : Option String
  fee_details : List FeeDetail
  deriving Repr, DecidableEq

/-- `x / 100 || 0` on a possibly-undefined minor-unit amount. -/
def minorToQ : Option ℤ → ℚ
  | some v => (v : ℚ) / 100
  | none => 0

/-- JavaScript `a || b` on strings (empty string is falsy). -/
def jsOr (a b : String) : String := if a = "" then b else a

/-- The category string read back from a sheet cell (`cell || ''` on the
payout row Category cell; non-string cells fall back to the empty
string). -/
def categoryOfCell : CellVal → String
  | CellVal.str s => s
  | _ => ""

/-- 0-based column indices known to the top-level variant. -/
structure SimpleCols where
  amount : Nat
  description : Nat
  date : Nat
  receiptUrl : Nat
  deriving Repr, DecidableEq

/-- 0-based column indices known to the namespaced variant. -/
structure RichCols where
  amount : Nat
  description : Nat
  date : Nat
  receiptUrl : Nat
  institution : Nat
  accountNumber : Nat
  accountId : Nat
  category : Nat
  transactionId : Nat
  deriving Repr, DecidableEq

/-- `let receiptDriveUrl = null; if (transaction.receipt_url &&
receiptFilesMap[transaction.receipt_url]) receiptDriveUrl = ...` — the
destination URL a transaction's derived rows reference. -/
def receiptRefFor (receiptFilesMap : List (String × String)) (tx : BalanceTx) :
    Option String :=
  match tx.receipt_url with
  | some u => mapGet receiptFilesMap u
  | none => none

theorem getD_set_self {α : Type} (l : List α) (i : Nat) (v d : α) (h : i < l.length) :
    (l.set i v).getD i d = v := by
  rw [List.getD_eq_getElem?_getD, List.getElem?_set_eq_of_lt _ h]
  rfl

theorem getD_set_ne {α : Type} (l : List α) (i j : Nat) (v d : α) (h : i ≠ j) :
    (l.set i v).getD j d = l.getD j d := by
  rw [List.getD_eq_getElem?_getD, List.getElem?_set_ne h, ← List.getD_eq_getElem?_getD]

namespace Simple

/-- Top-level `createTransactionRow`. -/
def createTransactionRow (baseRowData : Row) (transaction : BalanceTx)
    (ci : SimpleCols) (originalPayoutDescription : String)
    (transactionAmount : ℚ) (receiptDriveUrl : Option String) : Row :=
  let description :=
    transaction.reporting_category ++ ": " ++ transaction.description
      ++ " (" ++ transaction.type ++ ")"
      ++ " | Source: " ++ transaction.source
      ++ (match transaction.customer_name with
          | some n => " | Customer: " ++ n
          | none => "")
      ++ " | " ++ originalPayoutDescription
  (((baseRowData.set ci.amount (CellVal.num transactionAmount)).set
      ci.description (CellVal.str description)).set
      ci.date (CellVal.date transaction.created)).set
      ci.receiptUrl (CellVal.str (receiptDriveUrl.getD ""))

/-- Top-level `createFeeRow`: negated amount, fee-flavored description,
transaction date and receipt URL; no other cell is touched. -/
def createFeeRow (baseRowData : Row) (fee : FeeDetail) (parentTransaction : BalanceTx)
    (ci : SimpleCols) (originalPayoutDescription : String)
    (feeAmount : ℚ) (receiptDriveUrl : Option String) : Row :=
  let description :=
    parentTransaction.reporting_category ++ ": " ++ fee.description
      ++ " (" ++ fee.type ++ ")"
      ++ " | Source: " ++ parentTransaction.source
      ++ (match parentTransaction.customer_name with
          | some n => " | Customer: " ++ n
          | none => "")
      ++ " | " ++ originalPayoutDescription
  (((baseRowData.set ci.amount (CellVal.num (-feeAmount))).set
      ci.description (CellVal.str description)).set
      ci.date (CellVal.date parentTransaction.created)).set
      ci.receiptUrl (CellVal.str (receiptDriveUrl.getD ""))

/-- Third loop of the top-level `processPayoutTransactions`, restricted
to one transaction: skip non-`available` ones, emit the transaction row
and then one fee row per fee-detail entry. -/
def rowsForTransaction (baseRowData : Row) (ci : SimpleCols)
    (originalPayoutDescription : String) (receiptFilesMap : List (String × String))
    (tx : BalanceTx) : List Row :=
  if tx.status = "available" then
    let receiptDriveUrl := receiptRefFor receiptFilesMap tx
    createTransactionRow baseRowData tx ci originalPayoutDescription
        (minorToQ tx.amount) receiptDriveUrl
      :: tx.fee_details.map (fun fee =>
          createFeeRow baseRowData fee tx ci originalPayoutDescription
            (minorToQ fee.amount) receiptDriveUrl)
  else []

end Simple

namespace Rich

/-- Namespaced `createTransactionRow` (extra columns set; category is
passed in by the loop). -/
def createTransactionRow (baseRowData : Row) (transaction : BalanceTx)
    (ci : RichCols) (originalPayoutDescription : String)
    (transactionAmount : ℚ) (receiptDriveUrl : Option String)
    (category stripeAccountNumber institutionName : String) : Row :=
  let description :=
    transaction.reporting_category ++ ":"
      ++ (match transaction.customer_name with
          | some n => " | Customer: " ++ n
          | none => "")
      ++ " | " ++ transaction.type ++ ": " ++ transaction.description
      ++ " | " ++ originalPayoutDescription
      ++ " | Source: " ++ transaction.source
  (((((((baseRowData.set ci.amount (CellVal.num transactionAmount)).set
      ci.description (CellVal.str description)).set
      ci.date (CellVal.date transaction.created)).set
      ci.receiptUrl (CellVal.str (receiptDriveUrl.getD ""))).set
      ci.institution (CellVal.str institutionName)).set
      ci.accountNumber (CellVal.str stripeAccountNumber)).set
      ci.accountId (CellVal.str "")).set
      ci.category (CellVal.str category)

/-- Namespaced `createFeeRow`: negated amount, and the Category cell is
forced to `STRIPE_FEE_CATEGORY_LABEL || category`. -/
def createFeeRow (baseRowData : Row) (fee : FeeDetail) (parentTransaction : BalanceTx)
    (ci : RichCols) (originalPayoutDescription : String)
    (feeAmount : ℚ) (receiptDriveUrl : Option String)
    (category stripeAccountNumber institutionName feeCategoryLabel : String) : Row :=
  let description :=
    parentTransaction.reporting_category ++ ":"
      ++ (match parentTransaction.customer_name with
          | some n => " | Customer: " ++ n
          | none => "")
      ++ " | " ++ fee.type ++ "\x7d: " ++ fee.description
      ++ " | " ++ originalPayoutDescription
      ++ " | Source: " ++ parentTransaction.source
  ((((((((baseRowData.set ci.amount (CellVal.num (-feeAmount))).set
      ci.description (CellVal.str description)).set
      ci.date (CellVal.date parentTransaction.created)).set
      ci.receiptUrl (CellVal.str (receiptDriveUrl.getD ""))).set
      ci.category (CellVal.str (jsOr feeCategoryLabel category))).set
      ci.institution (CellVal.str institutionName)).set
      ci.accountNumber (CellVal.str stripeAccountNumber)).set
      ci.accountId (CellVal.str "")).set
      ci.transactionId (CellVal.str "")

/-- Third loop of the namespaced `processPayoutTransactions` for one
transaction: category is the payout label for payout-typed transactions
and the payout row Category cell otherwise; account number comes from
`payout.destination || ''`. -/
def rowsForTransaction (baseRowData : Row) (ci : RichCols)
    (originalPayoutDescription : String) (receiptFilesMap : List (String × String))
    (institutionName payoutCategoryLabel feeCategoryLabel : String)
    (payoutDestination : Option String) (tx : BalanceTx) : List Row :=
  if tx.status = "available" then
    let receiptDriveUrl := receiptRefFor receiptFilesMap tx
    let stripeAccountNumber := payoutDestination.getD ""
    let category :=
      if tx.reporting_category = "payout" then payoutCategoryLabel
      else categoryOfCell (baseRowData.getD ci.category CellVal.blank)
    createTransactionRow baseRowData tx ci originalPayoutDescription
        (minorToQ tx.amount) receiptDriveUrl category stripeAccountNumber institutionName
      :: tx.fee_details.map (fun fee =>
          createFeeRow baseRowData fee tx ci originalPayoutDescription
            (minorToQ fee.amount) receiptDriveUrl category stripeAccountNumber
            institutionName feeCategoryLabel)
  else []

end Rich

/-- C8 counterexample: the top-level variant's `createFeeRow` never
touches the Category cell, so the fee row inherits the payout row's
category ("Donations" here) instead of being forced to the configured
fee-category label ("Finance Fee" in the namespaced variant's default). -/
theorem createFeeRow_simple_category_counterexample :
    (Simple.createFeeRow
        [CellVal.str "d", CellVal.str "desc", CellVal.num 500, CellVal.str "",
          CellVal.str "Donations"]
        ⟨"stripe_fee", some 150, "fee"⟩
        ⟨"txn_1", some 30000, "available", "ch_1", "charge", "cdesc", "charge",
          0, none, none, [⟨"stripe_fee", some 150, "fee"⟩]⟩
        ⟨2, 1, 0, 3⟩ "orig" (minorToQ (some 150)) none).getD 4 CellVal.blank
      = CellVal.str "Donations" ∧
    CellVal.str "Donations" ≠ CellVal.str "Finance Fee" :=
  ⟨rfl, by decide⟩

/-- C8 (amended): in both variants every available transaction emits
exactly one additional derived row per fee-detail entry, with amount the
negation of the fee amount in currency units (zero when the fee amount is
absent); the namespaced variant forces the fee row's Category cell to
the configured fee-category label, falling back to the transaction's
category when that label is empty, while the top-level variant leaves
every cell other than Amount, Description, Date and ReceiptURL — its
category cell included — unchanged from the payout row. -/
theorem createFeeRow_fee_rows (base : Row) (fee : FeeDetail) (tx : BalanceTx)
    (rci : RichCols) (sci : SimpleCols) (orig : String) (url : Option String)
    (cat acct inst pcl fcl : String) (rfm : List (String × String))
    (pdest : Option String)
    (ha : rci.amount < base.length) (hcat : rci.category < base.length)
    (r1 : rci.amount ≠ rci.description) (r2 : rci.amount ≠ rci.date)
    (r3 : rci.amount ≠ rci.receiptUrl) (r4 : rci.amount ≠ rci.category)
    (r5 : rci.amount ≠ rci.institution) (r6 : rci.amount ≠ rci.accountNumber)
    (r7 : rci.amount ≠ rci.accountId) (r8 : rci.amount ≠ rci.transactionId)
    (c1 : rci.category ≠ rci.institution) (c2 : rci.category ≠ rci.accountNumber)
    (c3 : rci.category ≠ rci.accountId) (c4 : rci.category ≠ rci.transactionId)
    (sa : sci.amount < base.length)
    (s1 : sci.amount ≠ sci.description) (s2 : sci.amount ≠ sci.date)
    (s3 : sci.amount ≠ sci.receiptUrl) :
    (tx.status = "available" →
      (Rich.rowsForTransaction base rci orig rfm inst pcl fcl pdest tx).length
          = 1 + tx.fee_details.length ∧
      (Simple.rowsForTransaction base sci orig rfm tx).length
          = 1 + tx.fee_details.length) ∧
    (tx.status ≠ "available" →
      Rich.rowsForTransaction base rci orig rfm inst pcl fcl pdest tx = [] ∧
      Simple.rowsForTransaction base sci orig rfm tx = []) ∧
    ((Rich.createFeeRow base fee tx rci orig (minorToQ fee.amount) url cat acct inst
        fcl).getD rci.amount CellVal.blank = CellVal.num (-(minorToQ fee.amount))) ∧
    ((Rich.createFeeRow base fee tx rci orig (minorToQ fee.amount) url cat acct inst
        fcl).getD rci.category CellVal.blank = CellVal.str (jsOr fcl cat)) ∧
    ((Simple.createFeeRow base fee tx sci orig (minorToQ fee.amount) url).getD
        sci.amount CellVal.blank = CellVal.num (-(minorToQ fee.amount))) ∧
    (∀ j, j ≠ sci.amount → j ≠ sci.description → j ≠ sci.date → j ≠ sci.receiptUrl →
      (Simple.createFeeRow base fee tx sci orig (minorToQ fee.amount) url).getD
          j CellVal.blank = base.getD j CellVal.blank) := by
  refine ⟨?_, ?_, ?_, ?_, ?_, ?_⟩
  · intro hav
    constructor
    · simp [Rich.rowsForTransaction, hav, Nat.add_comm]
    · simp [Simple.rowsForTransaction, hav, Nat.add_comm]
  · intro hnav
    constructor
    · simp [Rich.rowsForTransaction, hnav]
    · simp [Simple.rowsForTransaction, hnav]
  · simp only [Rich.createFeeRow]
    rw [getD_set_ne _ _ _ _ _ (Ne.symm r8), getD_set_ne _ _ _ _ _ (Ne.symm r7),
      getD_set_ne _ _ _ _ _ (Ne.symm r6), getD_set_ne _ _ _ _ _ (Ne.symm r5),
      getD_set_ne _ _ _ _ _ (Ne.symm r4), getD_set_ne _ _ _ _ _ (Ne.symm r3),
      getD_set_ne _ _ _ _ _ (Ne.symm r2), getD_set_ne _ _ _ _ _ (Ne.symm r1),
      getD_set_self _ _ _ _ ha]
  · simp only [Rich.createFeeRow]
    rw [getD_set_ne _ _ _ _ _ (Ne.symm c4), getD_set_ne _ _ _ _ _ (Ne.symm c3),
      getD_set_ne _ _ _ _ _ (Ne.symm c2), getD_set_ne _ _ _ _ _ (Ne.symm c1),
      getD_set_self]
    simp only [List.length_set]
    exact hcat
  · simp only [Simple.createFeeRow]
    rw [getD_set_ne _ _ _ _ _ (Ne.symm s3), getD_set_ne _ _ _ _ _ (Ne.symm s2),
      getD_set_ne _ _ _ _ _ (Ne.symm s1), getD_set_self _ _ _ _ sa]
  · intro j hj1 hj2 hj3 hj4
    simp only [Simple.createFeeRow]
    rw [getD_set_ne _ _ _ _ _ (Ne.symm hj4), getD_set_ne _ _ _ _ _ (Ne.symm hj3),
      getD_set_ne _ _ _ _ _ (Ne.symm hj2), getD_set_ne _ _ _ _ _ (Ne.symm hj1)]

/-- Witness for the amended C8 theorem at a concrete transaction with one
fee of 150 minor units on a 9-column sheet row. -/
theorem createFeeRow_fee_rows_witness :
    (Rich.createFeeRow
        [CellVal.str "d", CellVal.str "x", CellVal.num 500, CellVal.str "",
          CellVal.str "Inst", CellVal.str "a", CellVal.str "i", CellVal.str "Donations",
          CellVal.str "t"]
        ⟨"stripe_fee", some 150, "fee"⟩
        ⟨"txn_1", some 30000, "available", "ch_1", "charge", "cdesc", "charge",
          0, none, none, [⟨"stripe_fee", some 150, "fee"⟩]⟩
        ⟨2, 1, 0, 3, 4, 5, 6, 7, 8⟩ "orig" (minorToQ (some 150)) none "Donations" ""
        "Stripe" "Finance Fee").getD 7 CellVal.blank
      = CellVal.str "Finance Fee" ∧
    (Rich.rowsForTransaction
        [CellVal.str "d", CellVal.str "x", CellVal.num 500, CellVal.str "",
          CellVal.str "Inst", CellVal.str "a", CellVal.str "i", CellVal.str "Donations",
          CellVal.str "t"]
        ⟨2, 1, 0, 3, 4, 5, 6, 7, 8⟩ "orig" [] "Stripe" "Bank Account transfer"
        "Finance Fee" none
        ⟨"txn_1", some 30000, "available", "ch_1", "charge", "cdesc", "charge",
          0, none, none, [⟨"stripe_fee", some 150, "fee"⟩]⟩).length = 2 := by
  have h := createFeeRow_fee_rows
    [CellVal.str "d", CellVal.str "x", CellVal.num 500, CellVal.str "",
      CellVal.str "Inst", CellVal.str "a", CellVal.str "i", CellVal.str "Donations",
      CellVal.str "t"]
    ⟨"stripe_fee", some 150, "fee"⟩
    ⟨"txn_1", some 30000, "available", "ch_1", "charge", "cdesc", "charge",
      0, none, none, [⟨"stripe_fee", some 150, "fee"⟩]⟩
    ⟨2, 1, 0, 3, 4, 5, 6, 7, 8⟩ ⟨2, 1, 0, 3⟩ "orig" none "Donations" "" "Stripe"
    "Bank Account transfer" "Finance Fee" [] none
    (by decide) (by decide) (by decide) (by decide) (by decide) (by decide)
    (by decide) (by decide) (by decide) (by decide) (by decide) (by decide)
    (by decide) (by decide) (by decide) (by decide) (by decide) (by decide)
  refine ⟨?_, ?_⟩
  · have := h.2.2.2.1
    simpa [jsOr] using this
  · exact (h.1 rfl).1

/-! ### `fetchAndSaveReceipts` (identical in both variants)

`const uniqueReceiptUrls = [...new Set(receiptUrls)]` keeps the first
occurrence of each URL; one request is issued per unique URL; each
successful response is saved once (`saveReceiptToDrive`), its file id is
recorded for rollback and the map gains `receiptUrl → fileUrl`.  The
network fetch is modelled as a function from URL to an optional body
(`none` = non-200, logged and skipped) and the Drive save as a function
from URL to the created `(fileUrl, fileId)`. -/

/-- `[...new Set(xs)]`: insertion-order deduplication keeping first
occurrences. -/
def dedupFirst : List String → List String
  | [] => []
  | x :: xs => x :: dedupFirst (xs.filter (fun y => !(y == x)))
termination_by l => l.length
decreasing_by
  simpa using Nat.lt_succ_of_le (List.length_filter_le _ xs)

/-- Observable outcome of `fetchAndSaveReceipts`. -/
structure ReceiptsOut where
  receiptFilesMap : List (String × String)
  filesCreated : List String
  fetchedUrls : List String
  deriving Repr, DecidableEq

/-- `fetchAndSaveReceipts(receiptUrls, transactions, filesCreated)`. -/
def fetchAndSaveReceipts (fetch : String → Option String)
    (save : String → String × String) (receiptUrls : List String) : ReceiptsOut :=
  let uniqueReceiptUrls := dedupFirst receiptUrls
  { receiptFilesMap := uniqueReceiptUrls.filterMap (fun u =>
      (fetch u).map (fun _ => (u, (save u).1)))
    filesCreated := uniqueReceiptUrls.filterMap (fun u =>
      (fetch u).map (fun _ => (save u).2))
    fetchedUrls := uniqueReceiptUrls }

theorem mem_dedupFirst (u : String) : ∀ l : List String, u ∈ dedupFirst l ↔ u ∈ l
  | [] => by simp [dedupFirst]
  | x :: xs => by
    rw [dedupFirst]
    by_cases hux : u = x
    · simp [hux]
    · have : u ∈ xs.filter (fun y => !(y == x)) ↔ u ∈ xs := by
        simp [List.mem_filter, hux]
      simp only [List.mem_cons, mem_dedupFirst u (xs.filter (fun y => !(y == x))), this, hux,
        false_or]
termination_by l => l.length
decreasing_by
  simpa using Nat.lt_succ_of_le (List.length_filter_le _ xs)

theorem count_dedupFirst (u : String) : ∀ l : List String,
    (dedupFirst l).count u = if u ∈ l then 1 else 0
  | [] => by simp [dedupFirst]
  | x :: xs => by
    rw [dedupFirst]
    by_cases hux : u = x
    · subst hux
      rw [List.count_cons_self, count_dedupFirst u (xs.filter (fun y => !(y == u)))]
      simp [List.mem_filter]
    · rw [List.count_cons_of_ne hux, count_dedupFirst u (xs.filter (fun y => !(y == x)))]
      have : u ∈ xs.filter (fun y => !(y == x)) ↔ u ∈ xs := by
        simp [List.mem_filter, hux]
      simp [this, hux]
termination_by l => l.length
decreasing_by
  all_goals simpa using Nat.lt_succ_of_le (List.length_filter_le _ xs)

theorem nodup_dedupFirst : ∀ l : List String, (dedupFirst l).Nodup
  | [] => by simp [dedupFirst]
  | x :: xs => by
    rw [dedupFirst, List.nodup_cons]
    refine ⟨?_, nodup_dedupFirst (xs.filter (fun y => !(y == x)))⟩
    rw [mem_dedupFirst]
    simp [List.mem_filter]
termination_by l => l.length
decreasing_by
  all_goals simpa using Nat.lt_succ_of_le (List.length_filter_le _ xs)

theorem mapGet_filterMap_of_mem (fetch : String → Option String) (g : String → String)
    (us : List String) (u : String) (hnd : us.Nodup) (hu : u ∈ us) (b : String)
    (hb : fetch u = some b) :
    mapGet (us.filterMap (fun v => (fetch v).map (fun _ => (v, g v)))) u = some (g u) := by
  induction us with
  | nil => cases hu
  | cons v vs ih =>
    rw [List.nodup_cons] at hnd
    rcases List.mem_cons.mp hu with h | h
    · subst h
      rw [List.filterMap_cons, hb]
      simp [mapGet]
    · rw [List.filterMap_cons]
      cases hfv : fetch v with
      | none => exact ih hnd.2 h
      | some bv =>
        have hvu : (v == u) = false := by
          simp only [beq_eq_false_iff_ne, ne_eq]
          exact fun hc => hnd.1 (hc ▸ h)
        simp only [Option.map_some, mapGet, hvu]
        exact ih hnd.2 h

theorem filter_filterMap_key_count (fetch : String → Option String) (g : String → String)
    (us : List String) (u : String) (hnd : us.Nodup) (hu : u ∈ us) (b : String)
    (hb : fetch u = some b) :
    ((us.filterMap (fun v => (fetch v).map (fun _ => (v, g v)))).filter
        (fun e => e.1 == u)).length = 1 := by
  induction us with
  | nil => cases hu
  | cons v vs ih =>
    rw [List.nodup_cons] at hnd
    rcases List.mem_cons.mp hu with h | h
    · subst h
      have hzero : ((vs.filterMap (fun x => (fetch x).map (fun _ => (x, g x)))).filter
          (fun e => e.1 == u)).length = 0 := by
        rw [List.length_eq_zero, List.filter_eq_nil]
        intro e he
        obtain ⟨x, hx, hex⟩ := List.mem_filterMap.mp he
        cases hfx : fetch x with
        | none => rw [hfx] at hex; cases hex
        | some bx =>
          rw [hfx] at hex
          injection hex with hex
          subst hex
          intro hc
          exact hnd.1 (beq_iff_eq.mp hc ▸ hx)
      rw [List.filterMap_cons, hb]
      simp [List.filter_cons, hzero]
    · rw [List.filterMap_cons]
      cases hfv : fetch v with
      | none => exact ih hnd.2 h
      | some bv =>
        have hvu : (v == u) = false := by
          simp only [beq_eq_false_iff_ne, ne_eq]
          exact fun hc => hnd.1 (hc ▸ h)
        simp only [Option.map_some', List.filter_cons, hvu, Bool.false_eq_true,
          if_false]
        exact ih hnd.2 h

/-- C7: N transactions sharing one receipt URL cause exactly one fetch
(the URL appears once in the deduplicated request list), exactly one
stored asset bound to that URL in the map, and every transaction whose
`receipt_url` is that URL resolves the same single destination URL for
its derived rows. -/
theorem fetchAndSaveReceipts_dedup (fetch : String → Option String)
    (save : String → String × String) (receiptUrls : List String) (u : String)
    (hu : u ∈ receiptUrls) :
    ((fetchAndSaveReceipts fetch save receiptUrls).fetchedUrls.count u = 1) ∧
    (∀ b, fetch u = some b →
      (((fetchAndSaveReceipts fetch save receiptUrls).receiptFilesMap.filter
          (fun e => e.1 == u)).length = 1) ∧
      mapGet (fetchAndSaveReceipts fetch save receiptUrls).receiptFilesMap u
          = some (save u).1 ∧
      (∀ tx : BalanceTx, tx.receipt_url = some u →
        receiptRefFor (fetchAndSaveReceipts fetch save receiptUrls).receiptFilesMap tx
          = some (save u).1)) := by
  have hmem : u ∈ dedupFirst receiptUrls := (mem_dedupFirst u receiptUrls).mpr hu
  have hnd := nodup_dedupFirst receiptUrls
  refine ⟨?_, fun b hb => ⟨?_, ?_, ?_⟩⟩
  · rw [fetchAndSaveReceipts]
    simp only [count_dedupFirst u receiptUrls, if_pos hu]
  · exact filter_filterMap_key_count fetch (fun v => (save v).1) _ u hnd hmem b hb
  · exact mapGet_filterMap_of_mem fetch (fun v => (save v).1) _ u hnd hmem b hb
  · intro tx htx
    rw [receiptRefFor, htx]
    exact mapGet_filterMap_of_mem fetch (fun v => (save v).1) _ u hnd hmem b hb

/-- Witness for C7: three transactions sharing one receipt URL. -/
theorem fetchAndSaveReceipts_dedup_witness :
    ((fetchAndSaveReceipts (fun _ => some "blob") (fun v => ("drive-" ++ v, "id-" ++ v))
        ["u1", "u1", "u1"]).fetchedUrls.count "u1" = 1) ∧
    mapGet (fetchAndSaveReceipts (fun _ => some "blob")
        (fun v => ("drive-" ++ v, "id-" ++ v)) ["u1", "u1", "u1"]).receiptFilesMap "u1"
      = some "drive-u1" := by
  have h := fetchAndSaveReceipts_dedup (fun _ => some "blob")
    (fun v => ("drive-" ++ v, "id-" ++ v)) ["u1", "u1", "u1"] "u1" (by decide)
  exact ⟨h.1, (h.2 "blob" rfl).2.1⟩

/-! ### Run skeleton of `processStripePayouts`

Both variants look up the "Transactions" sheet and read the header row
before the `try` block: a missing sheet throws uncaught (no summary).
Inside the `try` they resolve the required columns, fetch payouts, match
rows, fetch balance transactions and process each queued payout; any
error is caught and turned into an alert.  The `finally` of the
top-level variant always calls `compileAndSendSummaryEmail()`; the
namespaced variant's `finally` sends the email only when
`payoutsWithTransactions.length > 0` (one entry pushed per successfully
processed payout that had transactions). -/

/-- `toLowerCase()` as a character-wise map. -/
def jsToLower (s : String) : String := String.mk (s.data.map Char.toLower)

/-- `findColumnIndex(headers, columnName)`: 1-based index of the
case-insensitive match, `none` modelling the thrown ColumnNotFound. -/
def findColumnIndex (headers : List String) (columnName : String) : Option Nat :=
  match headers.findIdx? (fun h => jsToLower h == jsToLower columnName) with
  | some i => some (i + 1)
  | none => none

/-- Columns the top-level variant resolves up front. -/
def simpleRequiredColumns : List String :=
  ["Date", "Description", "Amount", "ReceiptURL"]

/-- Columns the namespaced variant resolves up front. -/
def richRequiredColumns : List String :=
  ["Date", "Description", "Amount", "ReceiptURL", "Institution", "Account #",
    "Account ID", "Category", "Transaction ID"]

/-- Observables of one `processStripePayouts` run. -/
structure RunObs where
  emailsSent : Nat
  alerted : Bool
  payoutsProcessed : Nat
  uncaught : Bool
  deriving Repr, DecidableEq

/-- The `payoutIdsToProcess.forEach` loop: look the id up in the map,
process when transactions exist, skip (logged) when they are missing;
a processing error aborts the loop carrying the successes so far. -/
def processQueue (txMap : String → Option (List BalanceTx))
    (processOne : SheetPayoutRow → StripePayout → List BalanceTx → Except String Unit)
    (m : List (String × (SheetPayoutRow × StripePayout))) :
    List String → Nat → Except (String × Nat) Nat
  | [], n => Except.ok n
  | pid :: rest, n =>
      match mapGet m pid with
      | some rp =>
          match txMap pid with
          | some txs =>
              match processOne rp.1 rp.2 txs with
              | Except.ok _ => processQueue txMap processOne m rest (n + 1)
              | Except.error e => Except.error (e, n)
          | none => processQueue txMap processOne m rest n
      | none => Except.error ("missing payoutRowMap entry", n)

/-- The shared `try`-block body: column resolution, payout listing,
matching and the processing loop; the error value carries the number of
payouts successfully processed before the failure. -/
def runBody (requiredNames : List String) (headers : List String) (tz : ℤ)
    (payoutRows : List SheetPayoutRow) (pages : List PayoutsPage)
    (fetchTxs : Except String (String → Option (List BalanceTx)))
    (processOne : SheetPayoutRow → StripePayout → List BalanceTx → Except String Unit) :
    Except (String × Nat) Nat :=
  if requiredNames.all (fun n => (findColumnIndex headers n).isSome) then
    let fetched := fetchStripePayouts pages
    if fetched.ok then
      match fetchTxs with
      | Except.ok txMap =>
          let st := matchPhase tz payoutRows fetched.payouts
          processQueue txMap processOne st.payoutRowMap st.payoutIdsToProcess 0
      | Except.error e => Except.error (e, 0)
    else Except.error ("fetch failed", 0)
  else Except.error ("column not found", 0)

/-- Top-level `processStripePayouts`: the `finally` sends the summary
email unconditionally; a missing sheet throws before the `try`. -/
def processStripePayoutsSimple (sheetPresent : Bool) (headers : List String) (tz : ℤ)
    (payoutRows : List SheetPayoutRow) (pages : List PayoutsPage)
    (fetchTxs : Except String (String → Option (List BalanceTx)))
    (processOne : SheetPayoutRow → StripePayout → List BalanceTx → Except String Unit) :
    RunObs :=
  if sheetPresent then
    match runBody simpleRequiredColumns headers tz payoutRows pages fetchTxs processOne with
    | Except.ok n => ⟨1, false, n, false⟩
    | Except.error (_, n) => ⟨1, true, n, false⟩
  else ⟨0, false, 0, true⟩

/-- Namespaced `processStripePayouts`: the `finally` sends the summary
email only when at least one payout (with transactions) was processed. -/
def processStripePayoutsRich (sheetPresent : Bool) (headers : List String) (tz : ℤ)
    (payoutRows : List SheetPayoutRow) (pages : List PayoutsPage)
    (fetchTxs : Except String (String → Option (List BalanceTx)))
    (processOne : SheetPayoutRow → StripePayout → List BalanceTx → Except String Unit) :
    RunObs :=
  if sheetPresent then
    match runBody richRequiredColumns headers tz payoutRows pages fetchTxs processOne with
    | Except.ok n => ⟨if 0 < n then 1 else 0, false, n, false⟩
    | Except.error (_, n) => ⟨if 0 < n then 1 else 0, true, n, false⟩
  else ⟨0, false, 0, true⟩

/-- C3 counterexample: a run of the namespaced variant with the sheet and
all columns present, zero candidate rows (hence zero matched payouts) and
a clean upstream sends NO summary email, while the top-level variant on
the same inputs sends exactly one. -/
theorem summary_email_counterexample :
    (processStripePayoutsRich true
        ["Date", "Description", "Amount", "ReceiptURL", "Institution", "Account #",
          "Account ID", "Category", "Transaction ID"] 0 [] [PayoutsPage.mk [] false]
        (Except.ok (fun _ => none)) (fun _ _ _ => Except.ok ())).emailsSent = 0 ∧
    (processStripePayoutsRich true
        ["Date", "Description", "Amount", "ReceiptURL", "Institution", "Account #",
          "Account ID", "Category", "Transaction ID"] 0 [] [PayoutsPage.mk [] false]
        (Except.ok (fun _ => none)) (fun _ _ _ => Except.ok ())).payoutsProcessed = 0 ∧
    (processStripePayoutsSimple true
        ["Date", "Description", "Amount", "ReceiptURL", "Institution", "Account #",
          "Account ID", "Category", "Transaction ID"] 0 [] [PayoutsPage.mk [] false]
        (Except.ok (fun _ => none)) (fun _ _ _ => Except.ok ())).emailsSent = 1 := by
  refine ⟨?_, ?_, ?_⟩ <;> rfl

/-- C3 (amended): once the Transactions sheet and header row are read,
the top-level variant sends the summary email exactly once from its
`finally`, whether the body succeeds, matches zero payouts, or fails; a
zero-matched run processes no payout (no ledger mutation) and still
emails.  The namespaced variant's `finally` emails only when at least one
payout was processed, so its zero-matched runs (still mutation-free) send
no summary; and in both variants a missing sheet throws before the
`try`/`finally`, sending no email. -/
theorem processStripePayouts_summary_email (sheetPresent : Bool)
    (headers : List String) (tz : ℤ) (payoutRows : List SheetPayoutRow)
    (pages : List PayoutsPage)
    (fetchTxs : Except String (String → Option (List BalanceTx)))
    (processOne : SheetPayoutRow → StripePayout → List BalanceTx → Except String Unit) :
    (sheetPresent = true →
      (processStripePayoutsSimple sheetPresent headers tz payoutRows pages fetchTxs
        processOne).emailsSent = 1) ∧
    (sheetPresent = false →
      (processStripePayoutsSimple sheetPresent headers tz payoutRows pages fetchTxs
          processOne).emailsSent = 0 ∧
      (processStripePayoutsSimple sheetPresent headers tz payoutRows pages fetchTxs
          processOne).uncaught = true ∧
      (processStripePayoutsRich sheetPresent headers tz payoutRows pages fetchTxs
          processOne).emailsSent = 0) ∧
    ((matchPhase tz payoutRows (fetchStripePayouts pages).payouts).payoutIdsToProcess = [] →
      (processStripePayoutsSimple true headers tz payoutRows pages fetchTxs
          processOne).payoutsProcessed = 0 ∧
      (processStripePayoutsSimple true headers tz payoutRows pages fetchTxs
          processOne).emailsSent = 1 ∧
      (processStripePayoutsRich true headers tz payoutRows pages fetchTxs
          processOne).payoutsProcessed = 0 ∧
      (processStripePayoutsRich true headers tz payoutRows pages fetchTxs
          processOne).emailsSent = 0) := by
  have hbody : ∀ req, (matchPhase tz payoutRows (fetchStripePayouts pages).payouts).payoutIdsToProcess = [] →
      runBody req headers tz payoutRows pages fetchTxs processOne = Except.ok 0 ∨
      ∃ e, runBody req headers tz payoutRows pages fetchTxs processOne = Except.error (e, 0) := by
    intro req hempty
    rw [runBody]
    by_cases h1 : (req.all fun n => (findColumnIndex headers n).isSome) = true
    · rw [if_pos h1]
      cases hok : (fetchStripePayouts pages).ok with
      | true =>
        cases hft : fetchTxs with
        | ok txMap =>
          left
          simp [hok, hft, hempty, processQueue]
        | error e =>
          right
          exact ⟨e, by simp [hok, hft]⟩
      | false =>
        right
        exact ⟨"fetch failed", by simp [hok]⟩
    · rw [if_neg h1]
      exact Or.inr ⟨"column not found", rfl⟩
  refine ⟨?_, ?_, ?_⟩
  · intro hs
    subst hs
    rw [processStripePayoutsSimple, if_pos rfl]
    cases runBody simpleRequiredColumns headers tz payoutRows pages fetchTxs processOne with
    | ok n => rfl
    | error en => obtain ⟨e, n⟩ := en; rfl
  · intro hs
    subst hs
    exact ⟨rfl, rfl, rfl⟩
  · intro hempty
    refine ⟨?_, ?_, ?_, ?_⟩
    · rw [processStripePayoutsSimple, if_pos rfl]
      rcases hbody simpleRequiredColumns hempty with h | ⟨e, h⟩ <;> rw [h]
    · rw [processStripePayoutsSimple, if_pos rfl]
      rcases hbody simpleRequiredColumns hempty with h | ⟨e, h⟩ <;> rw [h]
    · rw [processStripePayoutsRich, if_pos rfl]
      rcases hbody richRequiredColumns hempty with h | ⟨e, h⟩ <;> rw [h] <;> rfl
    · rw [processStripePayoutsRich, if_pos rfl]
      rcases hbody richRequiredColumns hempty with h | ⟨e, h⟩ <;> rw [h] <;> rfl

/-- Witness for the amended C3 theorem on a concrete zero-match run. -/
theorem processStripePayouts_summary_email_witness :
    (processStripePayoutsSimple true ["Date", "Description", "Amount", "ReceiptURL"]
        0 [] [PayoutsPage.mk [] false] (Except.ok (fun _ => none))
        (fun _ _ _ => Except.ok ())).emailsSent = 1 ∧
    (processStripePayoutsRich true ["Date", "Description", "Amount", "ReceiptURL"]
        0 [] [PayoutsPage.mk [] false] (Except.ok (fun _ => none))
        (fun _ _ _ => Except.ok ())).emailsSent = 0 := by
  have h := processStripePayouts_summary_email true
    ["Date", "Description", "Amount", "ReceiptURL"] 0 [] [PayoutsPage.mk [] false]
    (Except.ok (fun _ => none)) (fun _ _ _ => Except.ok ())
  exact ⟨h.1 rfl, (h.2.2 rfl).2.2.2⟩

/-! ### Sidebar `ConfigManager` (`sidebar/logger.js` + `sidebar.ALLOWED_PROPERTIES`)

`getProperty` looks the name up in the allow-list (null when absent),
derives the scopes it may consult from the declared scope
(`script → [script, document, user]`, `document → [document, user]`,
`user → [user]`) and then always checks in the fixed order
script, document, user — so the widest store holding a value wins.
`setProperty` derives the permitted write scopes
(`script → [user, document, script]`, `document → [user, document]`,
`user → [user]`) and throws when the requested scope is not among them.
The three PropertiesService stores are modelled as partial maps. -/

/-- One entry of `sidebar.ALLOWED_PROPERTIES`. -/
structure PropertyDef where
  key : String
  label : String
  type : String
  required : Bool
  tooltip : String
  scope : String
  deriving Repr, DecidableEq

/-- `sidebar.ALLOWED_PROPERTIES` verbatim. -/
def ALLOWED_PROPERTIES : List PropertyDef :=
  [⟨"STRIPE_API_KEY", "Stripe API Key", "password", true,
      "Your secret Stripe API key.", "script"⟩,
    ⟨"RECEIPTS_FOLDER_URL", "Receipts Folder URL", "url", true,
      "The Google Drive folder URL where receipts will be saved.", "document"⟩,
    ⟨"STRIPE_PAYOUT_DESCRIPTION_PREFIX", "Stripe Payout Description Prefix", "text", true,
      "Prefix for payout descriptions in the sheet.", "user"⟩,
    ⟨"SUMMARY_EMAIL", "Summary Email", "email", true,
      "Email address to receive summary reports.", "document"⟩,
    ⟨"STRIPE_INSTITUTION_NAME", "Institution name on the sheet", "text", false,
      "Institution name on the sheet.", "user"⟩,
    ⟨"STRIPE_PAYOUT_CATEGORY_LABEL", "Payout category label", "text", false,
      "Payout category label", "document"⟩,
    ⟨"STRIPE_FEE_CATEGORY_LABEL", "Fee category label", "text", false,
      "Fee category label", "document"⟩]

/-- The script-, document- and user-scoped PropertiesService stores. -/
structure PropStores where
  script : String → Option String
  document : String → Option String
  user : String → Option String

/-- Read one named value from the store for a scope string. -/
def storeGet (st : PropStores) (scope name : String) : Option String :=
  if scope == "script" then st.script name
  else if scope == "document" then st.document name
  else if scope == "user" then st.user name
  else none

/-- Write one named value into the store for a scope string. -/
def storeSet (st : PropStores) (scope name value : String) : PropStores :=
  if scope == "user" then
    { st with user := fun n => if n == name then some value else st.user n }
  else if scope == "document" then
    { st with document := fun n => if n == name then some value else st.document n }
  else if scope == "script" then
    { st with script := fun n => if n == name then some value else st.script n }
  else st

/-- The `allowedScopes` switch in `getProperty`. -/
def getAllowedScopes (declared : String) : List String :=
  if jsToLower declared == "script" then ["script", "document", "user"]
  else if jsToLower declared == "document" then ["document", "user"]
  else if jsToLower declared == "user" then ["user"]
  else []

/-- The `permittedScopes` switch in `setProperty`. -/
def getPermittedScopes (declared : String) : List String :=
  if jsToLower declared == "script" then ["user", "document", "script"]
  else if jsToLower declared == "document" then ["user", "document"]
  else if jsToLower declared == "user" then ["user"]
  else []

/-- The `for (const scope of checkOrder)` loop of `getProperty`. -/
def firstValueIn (st : PropStores) (allowedScopes : List String) (name : String) :
    List String → Option String
  | [] => none
  | s :: rest =>
      if allowedScopes.contains s then
        match storeGet st s name with
        | some v => some v
        | none => firstValueIn st allowedScopes name rest
      else firstValueIn st allowedScopes name rest

/-- `ConfigManager.getProperty`. -/
def getProperty (st : PropStores) (propertyName : String) : Option String :=
  match ALLOWED_PROPERTIES.find? (fun p => p.key == propertyName) with
  | none => none
  | some propertyDef =>
      firstValueIn st (getAllowedScopes propertyDef.scope) propertyName
        ["script", "document", "user"]

/-- `ConfigManager.setProperty`. -/
def setProperty (st : PropStores) (propertyName value scope : String) :
    Except String PropStores :=
  match ALLOWED_PROPERTIES.find? (fun p => p.key == propertyName) with
  | none => Except.error "Property is not allowed."
  | some propertyDef =>
      let normalizedScope := jsToLower scope
      if (getPermittedScopes propertyDef.scope).contains normalizedScope then
        Except.ok (storeSet st normalizedScope propertyName value)
      else Except.error "Scope is not permitted for property."

theorem firstValueIn_cons_mem (st : PropStores) (allowed : List String)
    (name s : String) (rest : List String) (h : allowed.contains s = true) :
    firstValueIn st allowed name (s :: rest)
      = match storeGet st s name with
        | some v => some v
        | none => firstValueIn st allowed name rest := by
  rw [firstValueIn, if_pos h]

theorem firstValueIn_cons_not_mem (st : PropStores) (allowed : List String)
    (name s : String) (rest : List String) (h : allowed.contains s = false) :
    firstValueIn st allowed name (s :: rest) = firstValueIn st allowed name rest := by
  rw [firstValueIn, if_neg (by simpa using h)]

theorem firstValueIn_script_scope (st : PropStores) (name : String) :
    firstValueIn st ["script", "document", "user"] name ["script", "document", "user"]
      = (st.script name).orElse (fun _ =>
          (st.document name).orElse (fun _ => st.user name)) := by
  rw [firstValueIn_cons_mem _ _ _ _ _ (by decide),
    show storeGet st "script" name = st.script name from rfl]
  cases st.script name with
  | some v => rfl
  | none =>
    rw [firstValueIn_cons_mem _ _ _ _ _ (by decide),
      show storeGet st "document" name = st.document name from rfl]
    cases st.document name with
    | some v => rfl
    | none =>
      rw [firstValueIn_cons_mem _ _ _ _ _ (by decide),
        show storeGet st "user" name = st.user name from rfl]
      cases st.user name with
      | some v => rfl
      | none => rfl

theorem firstValueIn_document_scope (st : PropStores) (name : String) :
    firstValueIn st ["document", "user"] name ["script", "document", "user"]
      = (st.document name).orElse (fun _ => st.user name) := by
  rw [firstValueIn_cons_not_mem _ _ _ _ _ (by decide),
    firstValueIn_cons_mem _ _ _ _ _ (by decide),
    show storeGet st "document" name = st.document name from rfl]
  cases st.document name with
  | some v => rfl
  | none =>
    rw [firstValueIn_cons_mem _ _ _ _ _ (by decide),
      show storeGet st "user" name = st.user name from rfl]
    cases st.user name with
    | some v => rfl
    | none => rfl

theorem firstValueIn_user_scope (st : PropStores) (name : String) :
    firstValueIn st ["user"] name ["script", "document", "user"] = st.user name := by
  rw [firstValueIn_cons_not_mem _ _ _ _ _ (by decide),
    firstValueIn_cons_not_mem _ _ _ _ _ (by decide),
    firstValueIn_cons_mem _ _ _ _ _ (by decide),
    show storeGet st "user" name = st.user name from rfl]
  cases st.user name with
  | some v => rfl
  | none => rfl

/-- C9 counterexample: STRIPE_API_KEY stored in both the process-wide
(script) store and the user store.  The narrowest scope holding a value
is the user store ("sk_user"), but `getProperty` answers the script
store's value — the widest scope wins, not the narrowest. -/
theorem getProperty_widest_scope_counterexample :
    getProperty
        ⟨fun n => if n == "STRIPE_API_KEY" then some "sk_script" else none,
          fun _ => none,
          fun n => if n == "STRIPE_API_KEY" then some "sk_user" else none⟩
        "STRIPE_API_KEY" = some "sk_script" ∧
    (⟨fun n => if n == "STRIPE_API_KEY" then some "sk_script" else none,
        fun _ => none,
        fun n => if n == "STRIPE_API_KEY" then some "sk_user" else none⟩ :
          PropStores).user "STRIPE_API_KEY" = some "sk_user" ∧
    ("sk_script" : String) ≠ "sk_user" :=
  ⟨rfl, rfl, by decide⟩

/-- C9 (amended): reading an allow-listed property consults only the
scopes at or inside its declared scope, in the fixed order process-wide
(script) → document → user, so the widest scope holding a value wins;
non-allow-listed names read as null; writing rejects any scope outside
the property's permitted set (its declared scope and all narrower ones)
and otherwise stores the value in the requested scope. -/
theorem configManager_scope_resolution (st : PropStores) :
    (∀ name, ALLOWED_PROPERTIES.find? (fun p => p.key == name) = none →
      getProperty st name = none) ∧
    (∀ name p, ALLOWED_PROPERTIES.find? (fun q => q.key == name) = some p →
      (p.scope = "script" →
        getProperty st name
          = ((st.script name).orElse (fun _ =>
              (st.document name).orElse (fun _ => st.user name)))) ∧
      (p.scope = "document" →
        getProperty st name = (st.document name).orElse (fun _ => st.user name)) ∧
      (p.scope = "user" → getProperty st name = st.user name)) ∧
    (∀ name value scope p,
      ALLOWED_PROPERTIES.find? (fun q => q.key == name) = some p →
      ((getPermittedScopes p.scope).contains (jsToLower scope) = true →
        setProperty st name value scope
          = Except.ok (storeSet st (jsToLower scope) name value)) ∧
      ((getPermittedScopes p.scope).contains (jsToLower scope) = false →
        setProperty st name value scope = Except.error "Scope is not permitted for property.")) ∧
    (∀ name value scope, ALLOWED_PROPERTIES.find? (fun p => p.key == name) = none →
      setProperty st name value scope = Except.error "Property is not allowed.") := by
  refine ⟨?_, ?_, ?_, ?_⟩
  · intro name hnone
    simp only [getProperty, hnone]
  · intro name p hfind
    refine ⟨?_, ?_, ?_⟩ <;> intro hscope <;>
      simp only [getProperty, hfind] <;> rw [hscope]
    · rw [show getAllowedScopes "script" = ["script", "document", "user"] from by decide]
      exact firstValueIn_script_scope st name
    · rw [show getAllowedScopes "document" = ["document", "user"] from by decide]
      exact firstValueIn_document_scope st name
    · rw [show getAllowedScopes "user" = ["user"] from by decide]
      exact firstValueIn_user_scope st name
  · intro name value scope p hfind
    constructor
    · intro hperm
      simp only [setProperty, hfind]
      rw [if_pos (by simpa using hperm)]
    · intro hperm
      simp only [setProperty, hfind]
      rw [if_neg (by simpa using hperm)]
  · intro name value scope hnone
    simp only [setProperty, hnone]

/-- Witness for the amended C9 theorem: SUMMARY_EMAIL (declared scope
document) read from a user-store-only state, written at user scope, and
rejected at script scope. -/
theorem configManager_scope_resolution_witness :
    getProperty ⟨fun _ => none, fun _ => none,
        fun n => if n == "SUMMARY_EMAIL" then some "a@b.c" else none⟩ "SUMMARY_EMAIL"
      = some "a@b.c" ∧
    setProperty ⟨fun _ => none, fun _ => none, fun _ => none⟩
        "SUMMARY_EMAIL" "a@b.c" "script"
      = Except.error "Scope is not permitted for property." := by
  have h := configManager_scope_resolution
    ⟨fun _ => none, fun _ => none,
      fun n => if n == "SUMMARY_EMAIL" then some "a@b.c" else none⟩
  have h2 := configManager_scope_resolution ⟨fun _ => none, fun _ => none, fun _ => none⟩
  constructor
  · have := (h.2.1 "SUMMARY_EMAIL"
      ⟨"SUMMARY_EMAIL", "Summary Email", "email", true,
        "Email address to receive summary reports.", "document"⟩ rfl).2.1 rfl
    rw [this]
    rfl
  · exact ((h2.2.2.1 "SUMMARY_EMAIL" "a@b.c" "script"
      ⟨"SUMMARY_EMAIL", "Summary Email", "email", true,
        "Email address to receive summary reports.", "document"⟩ rfl).2 rfl)

end Tiller
